import Mathlib

/-!
Verification of the metrics sampling/aggregation pipeline of the dockapp-go
repository (battery profiler, CPU monitor, format rotator).

Shallow embedding: each Go function of interest is translated into a Lean
definition; the event-multiplexed select loops (Profiler.Start,
RotateMetricsFormat, the Delta goroutine) become explicit step functions on
state records, driven by event traces.  Go panics (index out of range) are
modelled as `Option.none`; Go float64 division is modelled exactly over ℚ
with an explicit NaN/Inf constructor for the divide-by-zero cases.
-/

namespace Dockapp

/-! ## CPU monitor (src/cmd/dockapp-cpu/cpumon.go) -/

/-- Time is a measurement of the time spent in each CPU mode
(cpumon.go lines 117-121).  Go `name string` and `InMode []int64`. -/
structure Time where
  name : String
  InMode : List Int
  deriving DecidableEq

/-- Constant `ModeIdle = 3` (cpumon.go line 25). -/
def ModeIdle : Nat := 3

/-- The loop body of Time.Sub (cpumon.go lines 169-178): start from a copy of
the receiver's InMode slice and, for each index of t2.InMode, subtract in
place.  `none` models the Go panic `index out of range` that occurs when
t2.InMode is longer than the receiver's InMode. -/
def subCounts : List Int → List Int → Option (List Int)
  | xs, [] => some xs
  | [], _ :: _ => none
  | x :: xs, y :: ys =>
      match subCounts xs ys with
      | none => none
      | some rest => some ((x - y) :: rest)

/-- Time.Sub (cpumon.go lines 169-178): `t.Sub t2` keeps the receiver's name
and subtracts t2's counters index-wise from the receiver's counters. -/
def Time.Sub (t t2 : Time) : Option Time :=
  match subCounts t.InMode t2.InMode with
  | none => none
  | some l => some ⟨t.name, l⟩

/-- The per-cycle delta computation inside the Delta goroutine
(cpumon.go lines 43-49): `tdelta := copy(tnew); for i, t := range told
\x7b tdelta[i] = tdelta[i].Sub(t) \x7d`.  First argument is `told` (the
previous sample), second is the fresh copy of `tnew`.  `none` models the Go
panic hit when `told` is longer than `tnew` (the write `tdelta[i]` is out of
range), or when an inner Sub panics.  Entries of `tnew` beyond the length of
`told` are left untouched (raw counters, not deltas). -/
def deltaApply : List Time → List Time → Option (List Time)
  | [], tdelta => some tdelta
  | _ :: _, [] => none
  | t :: told, td :: tdelta =>
      match td.Sub t with
      | none => none
      | some d =>
          match deltaApply told tdelta with
          | none => none
          | some rest => some (d :: rest)

/-- Two sample lists have the same shape: same length, and entity-wise the
same name and the same number of mode counters. -/
def sameShapeB : List Time → List Time → Bool
  | [], [] => true
  | t :: ts, u :: us =>
      (t.name == u.name && t.InMode.length == u.InMode.length) && sameShapeB ts us
  | _, _ => false

/-- Result of a Go float64 division of exact integer-valued operands:
either a finite rational, NaN (from 0/0), or a signed infinity (x/0, x ≠ 0).
The counters being divided are exact integers, so ℚ models the finite case
faithfully for the properties at issue here. -/
inductive FracResult where
  | val (q : ℚ)
  | nan
  | inf (pos : Bool)
  deriving DecidableEq

/-- IEEE-754 semantics of `a / b` for exact operands: 0/0 is NaN and x/0 for
x ≠ 0 is a signed infinity. -/
def fdiv (a b : ℚ) : FracResult :=
  if b = 0 then (if a = 0 then FracResult.nan else FracResult.inf (0 < a))
  else FracResult.val (a / b)

/-- IEEE-754 semantics of `1 - r`. -/
def oneMinus : FracResult → FracResult
  | FracResult.val q => FracResult.val (1 - q)
  | FracResult.nan => FracResult.nan
  | FracResult.inf b => FracResult.inf (!b)

/-- Time.Frac (cpumon.go lines 182-189): `idle := float64(t.InMode[mode]);
total := sum of all modes; return idle / total`.  There is no guard on
`total == 0`.  `none` models the index-out-of-range panic on `t.InMode[mode]`. -/
def Time.Frac (t : Time) (mode : Nat) : Option FracResult :=
  match t.InMode.get? mode with
  | none => none
  | some idle => some (fdiv (idle : ℚ) ((t.InMode.sum : Int) : ℚ))

/-- Time.FracUtil (cpumon.go lines 192-194): `1 - t.Frac(ModeIdle)`. -/
def Time.FracUtil (t : Time) : Option FracResult :=
  match t.Frac ModeIdle with
  | none => none
  | some r => some (oneMinus r)

/-- The inner loop of FilterCPU (cpumon.go lines 225-232) for one CPU `t`:
`for _, name := range ignore \x7b if t.Name() == name \x7b continue \x7d;
_cpus = append(_cpus, t) \x7d`.  The `continue` skips only the current ignore
entry, so `t` is appended once for every ignore entry it does NOT match. -/
def filterOne (t : Time) : List String → List Time
  | [] => []
  | name :: rest =>
      if t.name = name then filterOne t rest else t :: filterOne t rest

/-- The per-slice body of FilterCPU (cpumon.go lines 215-239): the outer loop
over the received slice, accumulating the inner loop's appends in order.
(The surrounding function returns the input channel unchanged when
`len(ignore) == 0`; the claims concern non-empty ignore lists.) -/
def filterCPUSlice (ignore : List String) : List Time → List Time
  | [] => []
  | t :: ts => filterOne t ignore ++ filterCPUSlice ignore ts

/-- Modelled from the claim's words (the spec never describes core
filtering): the filtering FilterCPU's own doc comment announces — keep
exactly the CPUs whose name is not an ignore entry, each once, in order. -/
def filterCPUClaimed (ignore : List String) (cpus : List Time) : List Time :=
  cpus.filter (fun t => !(ignore.contains t.name))

/-! ## Battery profiler (src/cmd/dockapp-battery/battery/battery.go,
src/cmd/dockapp-battery/battery/metrics.go) -/

/-- Battery state type (metrics.go lines 17-27): `type State int` with upower
integer values. -/
abbrev State := Int

/-- State value Charging = 1 (metrics.go line 21). -/
def State.Charging : State := 1

/-- State value Discharging = 2 (metrics.go line 22). -/
def State.Discharging : State := 2

/-- State value FullyCharged = 4 (metrics.go line 24). -/
def State.FullyCharged : State := 4

/-- Metrics (metrics.go lines 30-35): battery charge fraction, state, and two
optional durations (Go `*time.Duration`, nil modelled as `none`, the duration
itself as its int64 nanosecond count). -/
structure Metrics where
  Fraction : ℚ
  State : State
  UntilEmpty : Option Int
  UntilFull : Option Int
  deriving DecidableEq

/-- Result of one `Guage.BatteryMetrics()` fetch: a Metrics value or an
error (battery.go line 12). -/
inductive FetchResult where
  | ok (m : Metrics)
  | err (msg : String)
  deriving DecidableEq

/-- Profiler.refreshMetrics (battery.go lines 97-106) acting on the
mutex-guarded cell `b.metrics`: on a fetch error the cell is left unchanged
and the error is returned (to be logged by the loop); on success the cell is
overwritten and no error is returned. -/
def refreshMetrics (cell : Option Metrics) : FetchResult → Option Metrics × Option String
  | FetchResult.ok m => (some m, none)
  | FetchResult.err e => (cell, some e)

/-- State of the Profiler.Start select loop (battery.go lines 42-82):
`refreshing` is the local boolean flag; `metrics` the mutex-guarded latest
cell; `halted` records that the loop has returned (after which its deferred
calls have run); `tickerReleased` that the deferred `tick.Stop()` and
`watchStop()` executed; `fetchCount` instruments how many fetches have been
launched (the synchronous priming fetch plus every `go refresh()`);
`logCount` instruments calls of `log.Print`. -/
structure ProfState where
  refreshing : Bool
  metrics : Option Metrics
  halted : Bool
  tickerReleased : Bool
  fetchCount : Nat
  logCount : Nat
  deriving DecidableEq

/-- Events multiplexed by the select of Profiler.Start (battery.go lines
58-80): a receive on the stop channel, a receive on the change channel (the
code discards the channel's closed flag, so a receive from a closed channel
is the same event as a genuine notification), a ticker tick, and the
completion of a fetch carrying its result. -/
inductive ProfEvent where
  | stop
  | change
  | tick
  | refreshed (r : FetchResult)
  deriving DecidableEq

/-- The guarded launch shared by the change and tick cases (battery.go lines
62-65 and 67-70): `if !refreshing \x7b refreshing = true; go refresh() \x7d`. -/
def launchIfIdle (s : ProfState) : ProfState :=
  if s.refreshing then s
  else { s with refreshing := true, fetchCount := s.fetchCount + 1 }

/-- One iteration of the Profiler.Start select loop (battery.go lines 56-81).
Returns the successor state and the list of values offered to the consumer
channel `c` by the non-blocking send (battery.go lines 76-79); the channel
carries only `*Metrics` pointers, never errors.  The refreshed case folds in
the cell update done by `refreshMetrics` inside the fetch goroutine, which
completes before the error value is received (single-flight makes this
serialization exact).  A halted loop processes nothing. -/
def profStep (s : ProfState) (e : ProfEvent) : ProfState × List (Option Metrics) :=
  if s.halted then (s, [])
  else
    match e with
    | ProfEvent.stop => ({ s with halted := true, tickerReleased := true }, [])
    | ProfEvent.change => (launchIfIdle s, [])
    | ProfEvent.tick => (launchIfIdle s, [])
    | ProfEvent.refreshed r =>
        let p := refreshMetrics s.metrics r
        let s1 : ProfState :=
          { s with refreshing := false, metrics := p.1,
                   logCount := s.logCount + (if p.2.isSome then 1 else 0) }
        (s1, [s1.metrics])

/-- Run the Profiler.Start loop over a trace of events, accumulating the
offered values in order. -/
def profRun (s : ProfState) : List ProfEvent → ProfState × List (Option Metrics)
  | [] => (s, [])
  | e :: es =>
      let p := profStep s e
      let r := profRun p.1 es
      (r.1, p.2 ++ r.2)

/-- The loop's state when the select is first entered (battery.go lines
49-54): `refreshing := true` and the priming fetch already launched
(synchronously), its completion pending as a `refreshed` event; the cell
still holds the zero value of NewProfiler. -/
def profStart : ProfState :=
  { refreshing := true, metrics := none, halted := false,
    tickerReleased := false, fetchCount := 1, logCount := 0 }

/-- Go channel-receive readiness of the `case <-b.change:` select arm: the
arm is ready when a notification is pending, and also, unconditionally and
forever, once the channel has been closed (a receive from a closed channel
never blocks). -/
def changeCaseReady (closed notificationPending : Bool) : Bool :=
  closed || notificationPending

/-! ## Format rotator (metrics.go lines 178-194, RotateMetricsFormat) -/

/-- State of the RotateMetricsFormat select loop: `i` is the current index
and `offering` records whether `_c` is the real channel (true) or nil
(false), i.e. whether the current format is still being offered. -/
structure RotState where
  i : Nat
  offering : Bool
  deriving DecidableEq

/-- Events multiplexed by the select of RotateMetricsFormat (metrics.go
lines 186-192): a successful send of `f[i]` on `_c`, or a ticker tick.
The loop has no stop arm and no return statement. -/
inductive RotEvent where
  | send
  | tick
  deriving DecidableEq

/-- Initial state of RotateMetricsFormat (metrics.go lines 181-184):
`var i int` (zero) and `_c := c` (offering). -/
def rotInit : RotState := ⟨0, true⟩

/-- One iteration of the RotateMetricsFormat select loop (metrics.go lines
185-193) over the format list `f`.  The send arm fires only while `_c` is
non-nil; it delivers `f[i]` (`f.get? s.i`, whose `none` would be the Go
index panic on an empty `f`) and sets `_c = nil`.  The tick arm advances
`i = (i + 1) % len(f)` and re-arms `_c = c`.  The result is `Option`-valued
so that `none` means "the loop returned" — no arm produces it, faithfully to
the code's infinite loop (its `defer tick.Stop()` is unreachable). -/
def rotStep (f : List α) (s : RotState) : RotEvent → Option (RotState × List (Option α))
  | RotEvent.send =>
      if s.offering then some (⟨s.i, false⟩, [f.get? s.i]) else some (s, [])
  | RotEvent.tick => some (⟨(s.i + 1) % f.length, true⟩, [])

/-- Run the RotateMetricsFormat loop over a trace of events, collecting the
formats delivered by fired send arms, in order (each delivery is the
`f.get? i` of the send arm, always `some` for a non-empty format list);
`none` would mean the loop exited during the trace. -/
def rotRun (f : List α) (s : RotState) : List RotEvent → Option (RotState × List (Option α))
  | [] => some (s, [])
  | e :: es =>
      match rotStep f s e with
      | none => none
      | some (s1, out) =>
          match rotRun f s1 es with
          | none => none
          | some r => some (r.1, out ++ r.2)

/-- The event trace of a subscriber that reads exactly once per interval
starting at t = 0: a read (send) before the first tick, then alternately a
tick and a read, for k reads in total. -/
def onceTrace : Nat → List RotEvent
  | 0 => []
  | k + 1 => RotEvent.send :: RotEvent.tick :: onceTrace k

/-- A concrete Metrics value for use in concrete traces: a fully charged
battery. -/
def mFull : Metrics := ⟨1, State.FullyCharged, none, none⟩

end Dockapp

namespace Dockapp

theorem subCounts_eq_zipWith : ∀ (a b : List Int), a.length = b.length →
    subCounts a b = some (List.zipWith (fun x y => x - y) a b)
  | [], [], _ => rfl
  | [], _ :: _, h => by simp at h
  | _ :: _, [], h => by simp at h
  | x :: xs, y :: ys, h => by
      have h2 : xs.length = ys.length := by simpa using h
      simp [subCounts, subCounts_eq_zipWith xs ys h2]

theorem time_sub_same_len (t u : Time) (h : t.InMode.length = u.InMode.length) :
    Time.Sub t u = some ⟨t.name, List.zipWith (fun x y => x - y) t.InMode u.InMode⟩ := by
  simp [Time.Sub, subCounts_eq_zipWith _ _ h]

/-- C5: for a pair of successive raw samples of identical shape, the per-cycle
delta equals the per-entity field-wise subtraction current minus previous,
with the entity name preserved. -/
theorem delta_same_shape : ∀ (prev curr : List Time), sameShapeB prev curr = true →
    deltaApply prev curr =
      some (List.zipWith
        (fun p c => Time.mk c.name (List.zipWith (fun x y => x - y) c.InMode p.InMode))
        prev curr)
  | [], [], _ => rfl
  | [], _ :: _, h => by simp [sameShapeB] at h
  | _ :: _, [], h => by simp [sameShapeB] at h
  | p :: ps, c :: cs, h => by
      have h0 : (p.name = c.name ∧ p.InMode.length = c.InMode.length) ∧
          sameShapeB ps cs = true := by
        simpa [sameShapeB] using h
      have hs : Time.Sub c p =
          some ⟨c.name, List.zipWith (fun x y => x - y) c.InMode p.InMode⟩ :=
        time_sub_same_len c p h0.1.2.symm
      simp [deltaApply, hs, delta_same_shape ps cs h0.2]

theorem delta_same_shape_witness :
    sameShapeB [⟨"cpu", [100, 50, 0, 200]⟩] [⟨"cpu", [110, 52, 0, 210]⟩] = true ∧
    deltaApply [⟨"cpu", [100, 50, 0, 200]⟩] [⟨"cpu", [110, 52, 0, 210]⟩] =
      some [⟨"cpu", [10, 2, 0, 10]⟩] :=
  ⟨by decide,
   (delta_same_shape [⟨"cpu", [100, 50, 0, 200]⟩] [⟨"cpu", [110, 52, 0, 210]⟩]
      (by decide)).trans (by decide)⟩

/-- C2: evaluation of the delta computation at a shape change between
successive samples: when the core count shrinks (2 cores then 1) the
per-index subtraction panics (none); when it grows (1 core then 2) the
result is misaligned — the extra entry holds raw counters, not a delta.
No reset, no skipped cycle, no log. -/
theorem delta_shape_change_crash :
    deltaApply [⟨"cpu0", [1, 1, 1, 1]⟩, ⟨"cpu1", [1, 1, 1, 1]⟩]
      [⟨"cpu0", [2, 2, 2, 2]⟩] = none ∧
    deltaApply [⟨"cpu0", [10, 10]⟩] [⟨"cpu0", [12, 13]⟩, ⟨"cpu1", [5, 5]⟩] =
      some [⟨"cpu0", [2, 3]⟩, ⟨"cpu1", [5, 5]⟩] := by decide

/-- C4: evaluation of the utilization computation at an all-zero counter
vector: FracUtil propagates NaN from the 0/0 division instead of returning
0 (and there is no logging path in Frac or FracUtil at all). -/
theorem fracUtil_all_zero_nan :
    Time.FracUtil ⟨"cpu0", [0, 0, 0, 0]⟩ = some FracResult.nan ∧
    Time.FracUtil ⟨"cpu0", [0, 0, 0, 0]⟩ ≠ some (FracResult.val 0) := by decide

/-- C10: evaluation of FilterCPU's slice transformation: a CPU whose name is
in the two-element ignore list is still emitted (once), and a CPU matching
no ignore entry is emitted twice — not the claimed keep-each-non-ignored-
CPU-exactly-once filter (filterCPUClaimed). -/
theorem filterCPU_mismatch :
    filterCPUSlice ["cpu0", "cpu1"] [⟨"cpu0", [0]⟩] = [⟨"cpu0", [0]⟩] ∧
    filterCPUClaimed ["cpu0", "cpu1"] [⟨"cpu0", [0]⟩] = [] ∧
    filterCPUSlice ["a", "b"] [⟨"c", []⟩] = [⟨"c", []⟩, ⟨"c", []⟩] ∧
    filterCPUClaimed ["a", "b"] [⟨"c", []⟩] = [⟨"c", []⟩] := by decide

end Dockapp
namespace Dockapp

/-- C1: single-flight coalescing — while a fetch is outstanding
(refreshing = true), any run of further timer ticks and push notifications
launches no additional fetch and leaves the loop still awaiting the one
outstanding completion. -/
theorem single_flight (s : ProfState) (es : List ProfEvent)
    (hr : s.refreshing = true) (hh : s.halted = false)
    (he : ∀ e ∈ es, e = ProfEvent.tick ∨ e = ProfEvent.change) :
    (profRun s es).1.fetchCount = s.fetchCount ∧
    (profRun s es).1.refreshing = true := by
  induction es generalizing s with
  | nil => exact ⟨rfl, hr⟩
  | cons e es ih =>
      have hmem := he e (List.mem_cons_self e es)
      have hrest : ∀ x ∈ es, x = ProfEvent.tick ∨ x = ProfEvent.change :=
        fun x hx => he x (List.mem_cons_of_mem e hx)
      have hstep : profStep s e = (s, []) := by
        rcases hmem with h1 | h1 <;> subst h1 <;>
          simp [profStep, hh, launchIfIdle, hr]
      simpa [profRun, hstep] using ih s hr hh hrest

theorem single_flight_witness :
    profStart.refreshing = true ∧ profStart.halted = false ∧
    (profRun profStart [ProfEvent.tick, ProfEvent.change]).1.fetchCount = 1 :=
  ⟨rfl, rfl,
   (single_flight profStart [ProfEvent.tick, ProfEvent.change] rfl rfl
      (by decide)).1⟩

/-- C3: a fetch completing with an error leaves the latest-metrics cell
unchanged, launches no fetch (no immediate retry), does not halt the loop,
logs exactly once, and the non-blocking publish offers the old cell value
(the channel carries metrics pointers, never errors). -/
theorem failed_fetch_preserves_latest (s : ProfState) (msg : String)
    (hh : s.halted = false) :
    (profStep s (ProfEvent.refreshed (FetchResult.err msg))).1.metrics = s.metrics ∧
    (profStep s (ProfEvent.refreshed (FetchResult.err msg))).1.fetchCount = s.fetchCount ∧
    (profStep s (ProfEvent.refreshed (FetchResult.err msg))).1.halted = false ∧
    (profStep s (ProfEvent.refreshed (FetchResult.err msg))).1.refreshing = false ∧
    (profStep s (ProfEvent.refreshed (FetchResult.err msg))).1.logCount = s.logCount + 1 ∧
    (profStep s (ProfEvent.refreshed (FetchResult.err msg))).2 = [s.metrics] := by
  simp [profStep, hh, refreshMetrics]

theorem failed_fetch_preserves_latest_witness :
    profStart.halted = false ∧
    (profStep profStart (ProfEvent.refreshed (FetchResult.err "fetch failed"))).1.metrics
      = profStart.metrics :=
  ⟨rfl, (failed_fetch_preserves_latest profStart "fetch failed" rfl).1⟩

theorem profRun_halted (s : ProfState) (es : List ProfEvent) (hh : s.halted = true) :
    profRun s es = (s, []) := by
  induction es with
  | nil => rfl
  | cons e es ih => simp [profRun, profStep, hh, ih]

/-- C7: processing the stop event halts the loop (the Go return runs the
deferred tick.Stop and watchStop, releasing the timer and the notification
subscription), launches no fetch, and every later event — timer ticks and
notifications included — is ignored: no further fetches and no further
publishes ever occur. -/
theorem stop_halts_profiler (s : ProfState) (es : List ProfEvent)
    (hh : s.halted = false) :
    (profStep s ProfEvent.stop).1.halted = true ∧
    (profStep s ProfEvent.stop).1.tickerReleased = true ∧
    (profStep s ProfEvent.stop).1.fetchCount = s.fetchCount ∧
    profRun (profStep s ProfEvent.stop).1 es = ((profStep s ProfEvent.stop).1, []) := by
  have h1 : (profStep s ProfEvent.stop).1.halted = true := by simp [profStep, hh]
  exact ⟨h1, by simp [profStep, hh], by simp [profStep, hh], profRun_halted _ es h1⟩

theorem stop_halts_profiler_witness :
    profStart.halted = false ∧
    (profRun (profStep profStart ProfEvent.stop).1
      [ProfEvent.tick, ProfEvent.change,
       ProfEvent.refreshed (FetchResult.ok mFull)]).1.fetchCount = 1 := by
  refine ⟨rfl, ?_⟩
  have h := stop_halts_profiler profStart
    [ProfEvent.tick, ProfEvent.change, ProfEvent.refreshed (FetchResult.ok mFull)] rfl
  rw [h.2.2.2]
  exact h.2.2.1

/-- C6: evaluation of the loop at a closed notification channel.  A closed Go
channel is always ready to receive, and the loop's change arm discards the
closed flag, so after the source closes the channel (as
CreeperBatteryGuage.BatteryStateChange does when its upower subscription
fails) the change arm fires back-to-back: here two change receives with no
timer tick launch two more fetches and log nothing — not the claimed
log-once, timer-only degradation. -/
theorem closed_change_channel_busy_triggers :
    changeCaseReady true false = true ∧
    (profRun profStart
      [ProfEvent.refreshed (FetchResult.ok mFull), ProfEvent.change,
       ProfEvent.refreshed (FetchResult.ok mFull), ProfEvent.change]).1.fetchCount = 3 ∧
    (profRun profStart
      [ProfEvent.refreshed (FetchResult.ok mFull), ProfEvent.change,
       ProfEvent.refreshed (FetchResult.ok mFull), ProfEvent.change]).1.logCount = 0 := by
  decide

end Dockapp
namespace Dockapp

theorem rotRun_onceTrace_general (f : List α) (h : 0 < f.length) :
    ∀ (k i : Nat), i < f.length →
    rotRun f ⟨i, true⟩ (onceTrace k) =
      some (⟨(i + k) % f.length, true⟩,
            (List.range k).map (fun j => f.get? ((i + j) % f.length)))
  | 0, i, hi => by
      simp [onceTrace, rotRun, Nat.mod_eq_of_lt hi]
  | k + 1, i, hi => by
      have h1 : (i + 1) % f.length < f.length := Nat.mod_lt _ h
      have ih := rotRun_onceTrace_general f h k ((i + 1) % f.length) h1
      simp only [onceTrace, rotRun, rotStep, if_pos, ih, List.range_succ_eq_map,
        List.map_map, List.map_cons]
      have e1 : ((i + 1) % f.length + k) % f.length = (i + (k + 1)) % f.length := by
        rw [Nat.mod_add_mod]; congr 1; omega
      simp [e1]
      constructor
      · rw [Nat.mod_eq_of_lt hi]
      · intro a _
        have e2 : i + 1 + a = i + (a + 1) := by omega
        rw [e2]

/-- C8: round-robin rotation — every tick advances the index to
(i + 1) % len(f) and re-arms the offer, and a subscriber reading exactly
once per interval starting at t = 0 receives
f[0], f[1 % n], ..., f[(k-1) % n]: for [A, B, C] that is A, B, C, A, B, C, ... -/
theorem rotator_round_robin (f : List α) (k : Nat) (h : 0 < f.length) :
    (∀ s : RotState, rotStep f s RotEvent.tick =
        some (⟨(s.i + 1) % f.length, true⟩, [])) ∧
    rotRun f rotInit (onceTrace k) =
      some (⟨k % f.length, true⟩,
            (List.range k).map (fun j => f.get? (j % f.length))) := by
  refine ⟨fun s => rfl, ?_⟩
  have h0 := rotRun_onceTrace_general f h k 0 h
  simpa using h0

theorem rotator_round_robin_witness :
    0 < (["A", "B", "C"] : List String).length ∧
    rotRun ["A", "B", "C"] rotInit (onceTrace 6) =
      some (⟨0, true⟩,
            [some "A", some "B", some "C", some "A", some "B", some "C"]) :=
  ⟨by decide,
   ((rotator_round_robin (["A", "B", "C"] : List String) 6 (by decide)).2).trans
     (by decide)⟩

/-- C9 (amended): the RotateMetricsFormat loop has no stop arm — no event it
can process makes it return, so its background task never exits and the
deferred tick.Stop() releasing the timer is unreachable; only the Refresh
Coordinator (Profiler) has a working stop. -/
theorem rotator_never_exits (f : List α) (s : RotState) (e : RotEvent) :
    rotStep f s e ≠ none := by
  cases e
  · dsimp [rotStep]; split <;> simp
  · simp [rotStep]

/-- C9 counterexample: from the just-started rotator, each of the two events
of the loop (its complete select alphabet: a subscriber read, a timer tick)
leaves the loop running — there is no invocation that stops it. -/
theorem rotator_no_stop_event :
    rotStep (["A", "B", "C"] : List String) rotInit RotEvent.tick ≠ none ∧
    rotStep (["A", "B", "C"] : List String) rotInit RotEvent.send ≠ none := by
  decide

end Dockapp
